import Mathlib

/-!
Verification of the github-stats data-aggregation adapter.

Each section shallowly embeds one part of the TypeScript source:
pure functions become Lean functions, the paginated-fetch loops become
structural recursion on the remaining records, and the process-wide
rate-limit state becomes explicit state passing.  Remote I/O (the HTTP
client) is the environment: a simulated listing is the list of records
the remote endpoint would serve, and a profile lookup is a function
into `Option`.
-/

namespace GithubStats

/-! ### Paginated fetcher

Models the common pagination loop of `getAllReleases` (REST client) and
`getAllStargazersWithTimestamps` (stargazer analytics): request page 1, 2, …
of a listing with `perPage` records per page; append each page's records;
stop as soon as a page returns fewer than `perPage` records (in particular
an empty page).  The simulated listing is the full list of records `l`;
page `p` serves `(l.drop ((p-1)*perPage)).take perPage`, so walking the
pages corresponds to recursing on the not-yet-served suffix.  The result
pairs the collected records with the number of page requests issued. -/
def fetchAllPages (l : List α) (perPage : Nat) : List α × Nat :=
  if h : 0 < perPage ∧ (l.take perPage).length = perPage then
    -- the page was full: the loop condition (`length === perPage`) holds,
    -- so the loop continues with the next page
    let rest := fetchAllPages (l.drop perPage) perPage
    (l.take perPage ++ rest.1, rest.2 + 1)
  else
    -- short or empty page: append and stop (one final request)
    (l.take perPage, 1)
termination_by l.length
decreasing_by
  simp only [List.length_drop, List.length_take] at *
  omega

/-- `getAllReleases` walks the release listing with a fixed page size of 100. -/
def getAllReleases (releases : List α) : List α × Nat :=
  fetchAllPages releases 100

/-- `getAllStargazersWithTimestamps` walks the stargazer listing with a fixed
page size of 100 (the maximum the API allows). -/
def getAllStargazersWithTimestamps (stargazers : List α) : List α × Nat :=
  fetchAllPages stargazers 100

/-! ### Adaptive scope planner

`calculateOptimalAnalysisLimit` reads the core-quota `remaining` value and
whether a GITHUB_TOKEN credential is configured, and picks an analysis limit
plus an exhaustive-fetch flag.  JS numbers are modelled as integers
(`remaining - 10` can go negative for small quotas). -/
def calculateOptimalAnalysisLimit (hasToken : Bool) (remaining : Int) :
    Int × Bool :=
  let result :=
    if !hasToken then (min 25 (remaining - 10), false)
    else if remaining > 2000 then (min (remaining - 100) 50000, true)
    else if remaining > 500 then (min (remaining - 100) 10000, true)
    else if remaining > 100 then (min 100 (remaining - 20), false)
    else (max 10 (remaining - 5), false)
  -- final floor: `analysisLimit = Math.max(10, analysisLimit)`
  (max 10 result.1, result.2)

/-- The spec's decision table, stated as a band list evaluated in order with
the first matching band winning, the last row as the default, and the final
floor applied regardless of band. -/
def planScopeSpec (hasToken : Bool) (remaining : Int) : Int × Bool :=
  let bands : List (Bool × (Int × Bool)) :=
    [(!hasToken, (min 25 (remaining - 10), false)),
     (decide (remaining > 2000), (min (remaining - 100) 50000, true)),
     (decide (remaining > 500), (min (remaining - 100) 10000, true)),
     (decide (remaining > 100), (min 100 (remaining - 20), false))]
  let chosen := ((bands.find? (fun b => b.1)).map (fun b => b.2)).getD
      (max 10 (remaining - 5), false)
  (max 10 chosen.1, chosen.2)

/-! ### Batch profile enricher

`chunk` partitions a list into fixed-size, order-preserving slices (the
source's `for (i = 0; i < length; i += size)` loop; the loop does not
terminate for `size = 0`, so the model is only meaningful for positive
sizes, which every caller uses). -/
def chunk (l : List α) (size : Nat) : List (List α) :=
  if _h : l.length = 0 ∨ size = 0 then []
  else l.take size :: chunk (l.drop size) size
termination_by l.length
decreasing_by
  simp only [List.length_drop]
  have h1 : l.length ≠ 0 := fun he => _h (Or.inl he)
  have h2 : size ≠ 0 := fun he => _h (Or.inr he)
  omega

/-- `processInBatches` runs `processor` over each fixed-size batch,
dropping failed items (`null` results), and concatenates the per-batch
survivors in order.  The inter-batch delay and in-batch concurrency have no
effect on the value computed, so the model elides them. -/
def processInBatches (items : List α) (processor : α → Option β)
    (batchSize : Nat) : List β :=
  ((chunk items batchSize).map
    (fun batch => (batch.map processor).filterMap id)).flatten

/-- `getInfluencerProfiles` enriches stargazers through `processInBatches`;
a profile lookup that throws is caught and turned into `null` (here: the
abstract lookup function `fetchUserProfile` returning `none`). -/
def getInfluencerProfiles (fetchUserProfile : α → Option β)
    (stargazers : List α) (batchSize : Nat) : List β :=
  processInBatches stargazers fetchUserProfile batchSize

/-! ### Star history

`calculateStarHistory` filters the stargazers to those with a truthy
`starred_at`, groups them by the calendar-day key
`starred_at.split("T")[0] || "unknown"`, and walks the sorted distinct days
keeping a running cumulative count, emitting one `StarHistoryPoint` per
day. -/
structure StarHistoryPoint where
  date : String
  stars : Nat
  change : Nat
deriving DecidableEq

/-- Calendar-day key of one star event: `starred_at.split("T")[0] || "unknown"`
(the `||` covers the empty string, which is falsy in JS).  For the
single-character separator `"T"`, element 0 of the split is the prefix of
the string before the first `'T'`. -/
def starDateKey (ts : String) : String :=
  let d := String.mk (ts.data.takeWhile (fun c => c ≠ 'T'))
  if d = "" then "unknown" else d

/-- `stargazers.filter((s) => s.starred_at)`: events whose `starred_at` is
truthy, i.e. non-null and non-empty. -/
def observedStarTimestamps (stargazers : List (Option String)) : List String :=
  (stargazers.filterMap id).filter (fun t => t ≠ "")

/-- Lexicographic order on code points, the order JS's default string
comparison uses (it compares UTF-16 code units; on the ASCII day keys the
two agree). -/
def charListLe : List Char → List Char → Bool
  | [], _ => true
  | _ :: _, [] => false
  | a :: as, b :: bs =>
    if a.toNat < b.toNat then true
    else if b.toNat < a.toNat then false
    else charListLe as bs

def strLeb (x y : String) : Bool := charListLe x.data y.data

def insertSortedString (x : String) : List String → List String
  | [] => [x]
  | y :: ys => if strLeb x y then x :: y :: ys else y :: insertSortedString x ys

/-- `Object.keys(starsByDate).sort()`: ascending lexicographic order of the
day keys (stable insertion sort). -/
def sortStrings (l : List String) : List String := l.foldr insertSortedString []

/-- The `for (const date of sortedDates)` loop: one history point per day,
`change` the day's group size and `stars` the running cumulative count. -/
def starHistoryAux (keys : List String) (running : Nat) :
    List String → List StarHistoryPoint
  | [] => []
  | d :: ds =>
    { date := d,
      stars := running + (keys.filter (fun k => k = d)).length,
      change := (keys.filter (fun k => k = d)).length }
      :: starHistoryAux keys (running + (keys.filter (fun k => k = d)).length) ds

/-- The `history_points` sequence of `calculateStarHistory`. -/
def calculateStarHistoryPoints (stargazers : List (Option String)) :
    List StarHistoryPoint :=
  let keys := (observedStarTimestamps stargazers).map starDateKey
  starHistoryAux keys 0 (sortStrings keys.dedup)

/-- Concrete star events used to witness the star-history claim: two events
on 2024-01-01, one on 2024-01-02, one unobserved (`null`) event. -/
def demoStargazers : List (Option String) :=
  [some "2024-01-01T10:00:00Z", some "2024-01-02T05:00:00Z",
   some "2024-01-01T22:00:00Z", none]

/-! ### Quota tracker

The functional rate-limit layer keeps the most recently observed quota
snapshot per resource class.  The process-wide mutable variable
`currentRateLimitState : RateLimitState | null` becomes an explicit
`Option RateLimitState` value threaded through the functions; the TS
`RateLimitState` record (one optional `RateLimitStatus` field per resource
class, `core` required) becomes a lookup function into `Option`. -/
structure RateLimitStatus where
  limit : Nat
  remaining : Nat
  used : Nat
  reset : Nat
  resource : String
deriving DecidableEq

def RateLimitState : Type := String → Option RateLimitStatus

/-- The five `x-ratelimit-*` response headers; `none` models an absent
header (the source turns an absent value into `""` via `String(x || "")`). -/
structure RateLimitHeaders where
  limit : Option String
  remaining : Option String
  used : Option String
  reset : Option String
  resource : Option String

/-- `parseInt(s, 10)` on the canonical decimal strings the quota headers
carry (a non-numeric string would give `NaN` in JS; no claim involves
one). -/
def jsParseInt (s : String) : Nat :=
  s.data.foldl (fun acc c => acc * 10 + (c.toNat - 48)) 0

/-- `parseRateLimitHeaders`: reads the five header fields and returns `null`
when any of them is absent (empty after defaulting). -/
def parseRateLimitHeaders (h : RateLimitHeaders) : Option RateLimitStatus :=
  let limitStr := h.limit.getD ""
  let remainingStr := h.remaining.getD ""
  let usedStr := h.used.getD ""
  let resetStr := h.reset.getD ""
  let resourceStr := h.resource.getD ""
  if limitStr = "" ∨ remainingStr = "" ∨ usedStr = "" ∨ resetStr = "" ∨
      resourceStr = "" then
    none
  else
    some { limit := jsParseInt limitStr, remaining := jsParseInt remainingStr,
           used := jsParseInt usedStr, reset := jsParseInt resetStr,
           resource := resourceStr }

/-- `updateRateLimitState`: spread of the base state with the named resource
replaced; the base is the current state, or — when no state exists yet —
the fresh record `{ core: newStatus }`. -/
def updateRateLimitState (current : Option RateLimitState)
    (s : RateLimitStatus) : RateLimitState :=
  let base : RateLimitState :=
    match current with
    | some st => st
    | none => fun r => if r = "core" then some s else none
  fun r => if r = s.resource then some s else base r

/-- `updateFromHeaders`: parse the headers; on failure leave the state as it
was, otherwise install the new snapshot for its resource. -/
def updateFromHeaders (current : Option RateLimitState)
    (h : RateLimitHeaders) : Option RateLimitState :=
  match parseRateLimitHeaders h with
  | none => current
  | some s => some (updateRateLimitState current s)

/-- Snapshot lookup through the nullable state. -/
def lookupSnapshot (state : Option RateLimitState) (resource : String) :
    Option RateLimitStatus :=
  match state with
  | none => none
  | some st => st resource

/-- `isRateLimited`: blocked only when a snapshot exists for the resource,
its `remaining` is ≤ 0 and the current time (ms) is still before
`reset * 1000`. -/
def isRateLimited (state : Option RateLimitState) (resource : String)
    (now : Nat) : Bool :=
  match state with
  | none => false
  | some st =>
    match st resource with
    | none => false
    | some s =>
      if s.remaining ≤ 0 then decide (now < s.reset * 1000) else false

/-- Concrete quota state for witnesses: an exhausted `core` snapshot that
resets at epoch second 1000, no snapshot for any other resource. -/
def demoRateState : RateLimitState := fun r =>
  if r = "core" then
    some { limit := 5000, remaining := 0, used := 5000, reset := 1000,
           resource := "core" }
  else none

/-- Concrete headers naming resource `search`, all five fields present. -/
def demoHeaders : RateLimitHeaders :=
  { limit := some "5000", remaining := some "4000", used := some "1000",
    reset := some "1700000000", resource := some "search" }

/-- Concrete headers with the `x-ratelimit-limit` field absent. -/
def demoHeadersMissing : RateLimitHeaders :=
  { limit := none, remaining := some "4000", used := some "1000",
    reset := some "1700000000", resource := some "search" }

/-! ### Release frequency

The release-frequency block of `getReleaseAnalytics`: published non-draft
releases sorted by publish date, mean inter-arrival in days, and the
derived per-month / per-year rates. -/

/-- One release as the frequency computation sees it: whether it is a
draft, and its publish time `new Date(published_at).getTime()` in epoch
milliseconds (`none` models `null`; ISO-string parsing is environment). -/
structure ReleaseInfo where
  published_at : Option Int
  draft : Bool
deriving DecidableEq

/-- `Math.round`: round half toward positive infinity. -/
def jsRound (q : ℚ) : Int := ⌊q + 1 / 2⌋

/-- `Math.round(x * 100) / 100`, the two-decimal rounding used throughout,
in exact rational arithmetic. -/
def round2 (q : ℚ) : ℚ := (jsRound (q * 100) : ℚ) / 100

def insertByPublished (x : ReleaseInfo) : List ReleaseInfo → List ReleaseInfo
  | [] => [x]
  | y :: ys =>
    if x.published_at.getD 0 ≤ y.published_at.getD 0 then x :: y :: ys
    else y :: insertByPublished x ys

/-- `publishedReleases.sort((a, b) => getTime(a) - getTime(b))`: stable
ascending sort by publish time. -/
def sortByPublished (l : List ReleaseInfo) : List ReleaseInfo :=
  l.foldr insertByPublished []

/-- The `release_frequency` value of `getReleaseAnalytics`:
`(days_between_releases, releases_per_month, releases_per_year)`. -/
def releaseFrequency (releases : List ReleaseInfo) : ℚ × ℚ × ℚ :=
  let publishedReleases :=
    releases.filter (fun r => r.published_at.isSome && !r.draft)
  let daysBetweenReleases : ℚ :=
    if 1 < publishedReleases.length then
      let sorted := sortByPublished publishedReleases
      let firstDate : ℚ := ((sorted.headD ⟨none, false⟩).published_at.getD 0 : Int)
      let lastDate : ℚ :=
        ((sorted.getLastD ⟨none, false⟩).published_at.getD 0 : Int)
      let totalDays : ℚ := (lastDate - firstDate) / (1000 * 60 * 60 * 24)
      totalDays / ((sorted.length : ℚ) - 1)
    else 0
  (round2 daysBetweenReleases,
   if 0 < daysBetweenReleases then round2 (30 / daysBetweenReleases) else 0,
   if 0 < daysBetweenReleases then round2 (365 / daysBetweenReleases) else 0)

/-- Concrete releases for the frequency edge-case witness: one published
release, one unpublished, one draft. -/
def demoReleases : List ReleaseInfo :=
  [⟨some 1700000000000, false⟩, ⟨none, false⟩, ⟨some 5, true⟩]

/-! ### Notable stargazers

`identifyNotableStargazers` collects up to 10 mega influencers, up to 5
profiles at well-known employers, and up to 5 top-influence-score profiles
not already selected, in that order, capped at 20. -/

/-- The profile fields `identifyNotableStargazers` reads; `company` is
nullable and `influence_score` is the derived score (modelled as an exact
rational). -/
structure InfluencerDeveloper where
  login : String
  followers : Nat
  company : Option String
  influence_score : ℚ
deriving DecidableEq

/-- One notable-stargazers entry.  The human-readable `reason` string is
not modelled: its `toLocaleString` formatting is locale-dependent and has
no bearing on which profiles are selected or their order. -/
structure NotableStargazer where
  login : String
  followers : Nat
  company : Option String
deriving DecidableEq

def mkNotable (u : InfluencerDeveloper) : NotableStargazer :=
  { login := u.login, followers := u.followers, company := u.company }

/-- `String.prototype.includes`: substring containment. -/
def strIncludes (s pat : String) : Bool :=
  s.data.tails.any (fun t => pat.data.isPrefixOf t)

def notableCompanies : List String :=
  ["GitHub", "Microsoft", "Google", "Meta", "Apple", "Netflix", "Amazon",
   "Vercel", "Stripe"]

/-- `u.company && notableCompanies.some((company) =>
u.company?.toLowerCase().includes(company.toLowerCase()))`; a `null` or
empty (falsy) company never matches. -/
def worksAtNotableCompany (company : Option String) : Bool :=
  match company with
  | none => false
  | some c =>
    c ≠ "" && notableCompanies.any
      (fun comp => strIncludes c.toLower comp.toLower)

def insertByScoreDesc (x : InfluencerDeveloper) :
    List InfluencerDeveloper → List InfluencerDeveloper
  | [] => [x]
  | y :: ys =>
    if y.influence_score ≤ x.influence_score then x :: y :: ys
    else y :: insertByScoreDesc x ys

/-- `[...influencers].sort((a, b) => b.influence_score - a.influence_score)`:
stable descending sort by influence score (JS `Array.sort` is stable). -/
def sortByScoreDesc (l : List InfluencerDeveloper) : List InfluencerDeveloper :=
  l.foldr insertByScoreDesc []

/-- `identifyNotableStargazers`: sequential pushes into `notable` — the
mega-influencer group, the notable-company group, then the top-5-by-score
pass that skips logins already selected — followed by `slice(0, 20)`. -/
def identifyNotableStargazers (influencers : List InfluencerDeveloper) :
    List NotableStargazer :=
  let notable : List NotableStargazer :=
    ((influencers.filter (fun u => 10000 ≤ u.followers)).take 10).map mkNotable
  let notable := notable ++
    ((influencers.filter (fun u => worksAtNotableCompany u.company)).take 5).map
      mkNotable
  let notable := ((sortByScoreDesc influencers).take 5).foldl
    (fun acc user =>
      if acc.any (fun n => n.login = user.login) then acc
      else acc ++ [mkNotable user])
    notable
  notable.take 20

/-- Group (a) of the spec: up to 10 profiles with followers ≥ 10,000, in
input order. -/
def notableGroupA (l : List InfluencerDeveloper) : List NotableStargazer :=
  ((l.filter (fun u => 10000 ≤ u.followers)).take 10).map mkNotable

/-- Group (b) of the spec: up to 5 profiles whose company case-insensitively
contains a well-known employer, in input order. -/
def notableGroupB (l : List InfluencerDeveloper) : List NotableStargazer :=
  ((l.filter (fun u => worksAtNotableCompany u.company)).take 5).map mkNotable

/-- Group (c) of the spec: walk the candidates, keeping each one whose login
has not already been selected (in the initial selection or earlier in this
group). -/
def notableGroupC (selected : List NotableStargazer) :
    List InfluencerDeveloper → List NotableStargazer
  | [] => []
  | u :: us =>
    if selected.any (fun n => n.login = u.login) then notableGroupC selected us
    else mkNotable u :: notableGroupC (selected ++ [mkNotable u]) us

/-! ### Response truncation

`truncateResponse` serializes the handler payload with
`JSON.stringify(data, null, 2)` and, when it exceeds the character budget,
repeatedly shrinks the named array field by 20% until the serialized form
fits.  Payloads are JSON values. -/

/-- JSON values as the handler payloads contain them.  The numbers occurring
in the payloads are integers (counts, identifiers, sizes); JS prints those
without a decimal point, which `Int` reproduces. -/
inductive Json where
  | null : Json
  | bool (b : Bool) : Json
  | num (n : Int) : Json
  | str (s : String) : Json
  | arr (items : List Json) : Json
  | obj (fields : List (String × Json)) : Json

/-- JSON string escaping for the characters the payloads contain (quote,
backslash, newline, carriage return, tab; other control characters, which
JS escapes as `\uXXXX`, do not occur in the claims). -/
def escapeChar (c : Char) : String :=
  if c = '"' then "\\\""
  else if c = '\\' then "\\\\"
  else if c = '\n' then "\\n"
  else if c = '\r' then "\\r"
  else if c = '\t' then "\\t"
  else String.singleton c

def jsonQuote (s : String) : String :=
  "\"" ++ String.join (s.data.map escapeChar) ++ "\""

def pad (n : Nat) : String := String.mk (List.replicate n ' ')

mutual
/-- `JSON.stringify(v, null, 2)` at nesting depth `d` (the closing bracket
of a container at depth `d` is indented by `d` spaces, its members by
`d + 2`): empty containers print inline, non-empty ones one member per
line. -/
def stringifyVal : Nat → Json → String
  | _, .null => "null"
  | _, .bool b => if b then "true" else "false"
  | _, .num n => toString n
  | _, .str s => jsonQuote s
  | _, .arr [] => "[]"
  | d, .arr (x :: xs) =>
    "[\n" ++ String.intercalate ",\n" (stringifyArrItems (d + 2) (x :: xs)) ++
      "\n" ++ pad d ++ "]"
  | _, .obj [] => "\x7b\x7d"
  | d, .obj (kv :: kvs) =>
    "\x7b\n" ++ String.intercalate ",\n" (stringifyObjItems (d + 2) (kv :: kvs)) ++
      "\n" ++ pad d ++ "\x7d"

def stringifyArrItems : Nat → List Json → List String
  | _, [] => []
  | d, x :: xs => (pad d ++ stringifyVal d x) :: stringifyArrItems d xs

def stringifyObjItems : Nat → List (String × Json) → List String
  | _, [] => []
  | d, (k, v) :: kvs =>
    (pad d ++ jsonQuote k ++ ": " ++ stringifyVal d v) :: stringifyObjItems d kvs
end

/-- `JSON.stringify(data, null, 2)`. -/
def stringify (data : Json) : String := stringifyVal 0 data

/-- `{ ...data, [k]: v }`: key order preserved, an existing key replaced in
place, a new key appended at the end. -/
def setField (kvs : List (String × Json)) (k : String) (v : Json) :
    List (String × Json) :=
  if kvs.any (fun p => p.1 = k) then
    kvs.map (fun p => if p.1 = k then (k, v) else p)
  else kvs ++ [(k, v)]

/-- The named field's value when the payload is an object carrying it as an
array (`Array.isArray(data[fieldName])`), otherwise `none`. -/
def getArrayField (data : Json) (field : String) : Option (List Json) :=
  match data with
  | .obj kvs =>
    match List.lookup field kvs with
    | some (.arr items) => some items
    | _ => none
  | _ => none

/-- `hasArrayField`: the payload is a non-null object with `field` present
and holding an array. -/
def hasArrayField (data : Json) (field : String) : Bool :=
  (getArrayField data field).isSome

/-- The `truncation_info` metadata object attached to a shrunken payload. -/
def truncationInfo (total showing : Nat) : Json :=
  .obj [("total_available", .num (total : Int)),
        ("showing", .num (showing : Int)),
        ("truncated", .bool true),
        ("reason",
         .str "Response exceeded token limit - use smaller limit parameter or pagination")]

/-- `Math.floor(n * 0.8)` on the integer array sizes in scope: the
double-precision product floors to `⌊4n/5⌋`. -/
def shrink80 (n : Nat) : Nat := 4 * n / 5

/-- The `while (targetSize > 0)` shrink loop of `truncateResponse`; when the
loop exhausts, the error-shaped fallback payload naming the true available
count is returned. -/
def truncateLoop (data : Json) (field : String) (arr : List Json)
    (maxChars : Nat) (targetSize : Nat) : Json × Bool :=
  if _h : targetSize = 0 then
    (.obj [("error", .str "Response too large even with truncation"),
           ("total_available", .num (arr.length : Int)),
           ("suggestion",
            .str "Use a smaller limit parameter or request specific items")],
     true)
  else
    let truncatedData : Json :=
      match data with
      | .obj kvs =>
        .obj (setField (setField kvs field (.arr (arr.take targetSize)))
          "truncation_info" (truncationInfo arr.length targetSize))
      | other => other
    if (stringify truncatedData).length ≤ maxChars then (truncatedData, true)
    else truncateLoop data field arr maxChars (shrink80 targetSize)
termination_by targetSize
decreasing_by
  simp only [shrink80]
  omega

def DEFAULT_MAX_RESPONSE_CHARS : Nat := 90000

/-- `maxChars || DEFAULT_MAX_RESPONSE_CHARS` (both an omitted argument and
`0` — falsy in JS — fall back to the default). -/
def effectiveMaxChars (maxChars : Option Nat) : Nat :=
  match maxChars with
  | some m => if m = 0 then DEFAULT_MAX_RESPONSE_CHARS else m
  | none => DEFAULT_MAX_RESPONSE_CHARS

/-- `truncateResponse`: return the payload unchanged when its serialization
fits the budget or when the named field is absent / not an array; otherwise
run the shrink loop starting from 80% of the array. -/
def truncateResponse (data : Json) (arrayFieldName : String)
    (maxChars : Option Nat) : Json × Bool :=
  let MAX_RESPONSE_CHARS := effectiveMaxChars maxChars
  let jsonString := stringify data
  if jsonString.length ≤ MAX_RESPONSE_CHARS then (data, false)
  else
    match getArrayField data arrayFieldName with
    | none => (data, false)
    | some originalArray =>
      truncateLoop data arrayFieldName originalArray MAX_RESPONSE_CHARS
        (shrink80 originalArray.length)

/-- Concrete small payload for the truncation witnesses. -/
def demoPayload : Json := Json.obj [("a", Json.str "hi")]

theorem fetchAllPages_records (l : List α) (perPage : Nat) (hP : 0 < perPage) :
    (fetchAllPages l perPage).1 = l := by
  suffices H : ∀ (n : Nat) (l : List α), l.length ≤ n →
      (fetchAllPages l perPage).1 = l by
    exact H l.length l le_rfl
  intro n
  induction n with
  | zero =>
    intro l hl
    have hnil : l = [] := List.length_eq_zero.mp (Nat.le_zero.mp hl)
    subst hnil
    rw [fetchAllPages, dif_neg (by rintro ⟨h1, h2⟩; simp at h2; omega)]
    simp
  | succ n ih =>
    intro l hl
    rw [fetchAllPages]
    by_cases h : 0 < perPage ∧ (l.take perPage).length = perPage
    · have hlen : perPage ≤ l.length := by
        have := h.2
        simp only [List.length_take] at this
        omega
      have hrec : (fetchAllPages (l.drop perPage) perPage).1 = l.drop perPage := by
        apply ih
        simp only [List.length_drop]
        omega
      rw [dif_pos h]
      simp only [hrec, List.take_append_drop]
    · rw [dif_neg h]
      have hlt : l.length < perPage := by
        by_contra hge
        exact h ⟨hP, by simp only [List.length_take]; omega⟩
      exact List.take_of_length_le (by omega)

theorem fetchAllPages_requests (l : List α) (perPage : Nat) (hP : 0 < perPage) :
    (fetchAllPages l perPage).2 = l.length / perPage + 1 := by
  suffices H : ∀ (n : Nat) (l : List α), l.length ≤ n →
      (fetchAllPages l perPage).2 = l.length / perPage + 1 by
    exact H l.length l le_rfl
  intro n
  induction n with
  | zero =>
    intro l hl
    have hnil : l = [] := List.length_eq_zero.mp (Nat.le_zero.mp hl)
    subst hnil
    rw [fetchAllPages, dif_neg (by rintro ⟨h1, h2⟩; simp at h2; omega)]
    simp
  | succ n ih =>
    intro l hl
    rw [fetchAllPages]
    by_cases h : 0 < perPage ∧ (l.take perPage).length = perPage
    · have hlen : perPage ≤ l.length := by
        have := h.2
        simp only [List.length_take] at this
        omega
      have hrec : (fetchAllPages (l.drop perPage) perPage).2
          = (l.drop perPage).length / perPage + 1 := by
        apply ih
        simp only [List.length_drop]
        omega
      rw [dif_pos h]
      simp only [hrec, List.length_drop]
      have hdiv : (l.length - perPage) / perPage + 1 = l.length / perPage := by
        conv_rhs => rw [show l.length = (l.length - perPage) + perPage by omega]
        rw [Nat.add_div_right _ hP]
      omega
    · rw [dif_neg h]
      have hlt : l.length < perPage := by
        by_contra hge
        exact h ⟨hP, by simp only [List.length_take]; omega⟩
      rw [Nat.div_eq_of_lt hlt]

/-- C1: for every simulated paginated listing with N records and page size P,
the exhaustive fetch loop shared by `getAllReleases` and
`getAllStargazersWithTimestamps` terminates (it is a total function),
returns exactly the N records, and issues `ceil(N/P)` requests when N is not
an exact multiple of P, and `ceil(N/P) + 1` requests when it is (the final
extra page returns zero records). -/
theorem pagination_terminates_returns_all_and_request_count
    (l : List α) (P : Nat) (hP : 0 < P) :
    (fetchAllPages l P).1 = l ∧
    (fetchAllPages l P).2 =
      (if P ∣ l.length then (l.length + P - 1) / P + 1
       else (l.length + P - 1) / P) := by
  refine ⟨fetchAllPages_records l P hP, ?_⟩
  rw [fetchAllPages_requests l P hP]
  by_cases hdvd : P ∣ l.length
  · rw [if_pos hdvd]
    obtain ⟨k, hk⟩ := hdvd
    have h1 : (P * k + P - 1) / P = k := by
      rw [show P * k + P - 1 = P * k + (P - 1) by omega, Nat.mul_add_div hP,
        Nat.div_eq_of_lt (show P - 1 < P by omega)]
      omega
    have h2 : P * k / P = k := Nat.mul_div_cancel_left k hP
    rw [hk, h1, h2]
  · rw [if_neg hdvd]
    have hq := Nat.div_add_mod l.length P
    have hr : 0 < l.length % P :=
      Nat.pos_of_ne_zero (fun h0 => hdvd (Nat.dvd_of_mod_eq_zero h0))
    have hrP : l.length % P < P := Nat.mod_lt _ hP
    have hR : (l.length + P - 1) / P = l.length / P + 1 := by
      have hx : P * (l.length / P + 1) = P * (l.length / P) + P := by ring
      rw [show l.length + P - 1 = P * (l.length / P + 1) + (l.length % P - 1) by omega,
        Nat.mul_add_div hP,
        Nat.div_eq_of_lt (show l.length % P - 1 < P by omega)]
    rw [hR]

/-- Witness for C1 at a concrete listing: 5 records with page size 2 come back
in full over 3 page requests (and the formula agrees). -/
theorem pagination_terminates_witness :
    0 < 2 ∧
    ((fetchAllPages (List.range 5) 2).1 = List.range 5 ∧
     (fetchAllPages (List.range 5) 2).2 =
       (if 2 ∣ (List.range 5).length then ((List.range 5).length + 2 - 1) / 2 + 1
        else ((List.range 5).length + 2 - 1) / 2)) :=
  ⟨by decide, pagination_terminates_returns_all_and_request_count (List.range 5) 2 (by decide)⟩

/-- C2: for every observed core-quota `remaining` value and credential
configuration, `calculateOptimalAnalysisLimit` returns exactly the first
matching band of the spec's decision table, with the final
`max 10` floor applied regardless of band. -/
theorem calculateOptimalAnalysisLimit_matches_decision_table
    (hasToken : Bool) (remaining : Int) :
    calculateOptimalAnalysisLimit hasToken remaining =
      planScopeSpec hasToken remaining := by
  cases hasToken with
  | false => simp [calculateOptimalAnalysisLimit, planScopeSpec, List.find?]
  | true =>
    by_cases h1 : (2000 : Int) < remaining
    · simp [calculateOptimalAnalysisLimit, planScopeSpec, List.find?, h1]
    · by_cases h2 : (500 : Int) < remaining
      · simp [calculateOptimalAnalysisLimit, planScopeSpec, List.find?, h1, h2]
      · by_cases h3 : (100 : Int) < remaining
        · simp [calculateOptimalAnalysisLimit, planScopeSpec, List.find?, h1, h2, h3]
        · simp [calculateOptimalAnalysisLimit, planScopeSpec, List.find?, h1, h2, h3]

theorem chunk_flatten (l : List α) (size : Nat) (hs : 0 < size) :
    (chunk l size).flatten = l := by
  suffices H : ∀ (n : Nat) (l : List α), l.length ≤ n →
      (chunk l size).flatten = l by
    exact H l.length l le_rfl
  intro n
  induction n with
  | zero =>
    intro l hl
    have hnil : l = [] := List.length_eq_zero.mp (Nat.le_zero.mp hl)
    subst hnil
    rw [chunk, dif_pos (Or.inl List.length_nil)]
    rfl
  | succ n ih =>
    intro l hl
    rw [chunk]
    by_cases h : l.length = 0 ∨ size = 0
    · rw [dif_pos h]
      rcases h with h | h
      · rw [List.length_eq_zero.mp h]; rfl
      · omega
    · rw [dif_neg h]
      push_neg at h
      have hpos : 0 < l.length := Nat.pos_of_ne_zero h.1
      have : (chunk (l.drop size) size).flatten = l.drop size := by
        apply ih
        simp only [List.length_drop]
        omega
      simp only [List.flatten_cons, this, List.take_append_drop]

/-- C3: for every identifier sequence and per-item lookup, the batch
enricher returns exactly the successful lookups with the failed ones
excluded and the relative order of successes preserved — that is, it
computes `List.filterMap` of the lookup — so no individual failure fails
the batch or the overall call. -/
theorem processInBatches_partial_failure
    (items : List α) (processor : α → Option β) (batchSize : Nat)
    (hs : 0 < batchSize) :
    processInBatches items processor batchSize = items.filterMap processor := by
  suffices H : ∀ (n : Nat) (l : List α), l.length ≤ n →
      processInBatches l processor batchSize = l.filterMap processor by
    exact H items.length items le_rfl
  intro n
  induction n with
  | zero =>
    intro l hl
    have hnil : l = [] := List.length_eq_zero.mp (Nat.le_zero.mp hl)
    subst hnil
    rw [processInBatches, chunk, dif_pos (Or.inl List.length_nil)]
    rfl
  | succ n ih =>
    intro l hl
    rw [processInBatches, chunk]
    by_cases h : l.length = 0 ∨ batchSize = 0
    · rw [dif_pos h]
      rcases h with h | h
      · rw [List.length_eq_zero.mp h]; rfl
      · omega
    · rw [dif_neg h]
      push_neg at h
      have hpos : 0 < l.length := Nat.pos_of_ne_zero h.1
      have hrec : processInBatches (l.drop batchSize) processor batchSize
          = (l.drop batchSize).filterMap processor := by
        apply ih
        simp only [List.length_drop]
        omega
      rw [processInBatches] at hrec
      simp only [List.map_cons, List.flatten_cons, hrec]
      rw [List.filterMap_map, Function.id_comp,
        ← List.filterMap_append, List.take_append_drop]

/-- Witness for C3 at the spec's concrete scenario: 10 identifiers where
lookups 3 and 7 fail yield exactly the 8 successes in their original
relative order. -/
theorem processInBatches_partial_failure_witness :
    0 < 3 ∧
    processInBatches [1, 2, 3, 4, 5, 6, 7, 8, 9, 10]
        (fun n => if n = 3 ∨ n = 7 then none else some n) 3 =
      List.filterMap (fun n => if n = 3 ∨ n = 7 then none else some n)
        [1, 2, 3, 4, 5, 6, 7, 8, 9, 10] :=
  ⟨by decide,
   processInBatches_partial_failure [1, 2, 3, 4, 5, 6, 7, 8, 9, 10]
     (fun n => if n = 3 ∨ n = 7 then none else some n) 3 (by decide)⟩

theorem starHistoryAux_stars_eq (keys : List String) (ds : List String)
    (running : Nat) (i : Nat)
    (h : i < (starHistoryAux keys running ds).length) :
    ((starHistoryAux keys running ds).get ⟨i, h⟩).stars
      = running + (((starHistoryAux keys running ds).take (i + 1)).map
          StarHistoryPoint.change).sum := by
  induction ds generalizing running i with
  | nil => simp [starHistoryAux] at h
  | cons d ds ih =>
    cases i with
    | zero => simp [starHistoryAux]
    | succ i =>
      have h2 : i < (starHistoryAux keys
          (running + (keys.filter (fun k => k = d)).length) ds).length := by
        simpa [starHistoryAux] using h
      have := ih (running + (keys.filter (fun k => k = d)).length) i h2
      simp only [starHistoryAux, List.get_cons_succ, List.take_succ_cons,
        List.map_cons, List.sum_cons] at this ⊢
      omega

/-- C4: in the history-point sequence produced by `calculateStarHistory`,
every point's cumulative `stars` value equals the sum of the `change`
deltas up to and including that point, and the cumulative value at point
`i + 1` is greater than or equal to the value at point `i`. -/
theorem calculateStarHistory_monotone_cumulative
    (stargazers : List (Option String)) :
    (∀ i (h : i < (calculateStarHistoryPoints stargazers).length),
      ((calculateStarHistoryPoints stargazers).get ⟨i, h⟩).stars
        = (((calculateStarHistoryPoints stargazers).take (i + 1)).map
            StarHistoryPoint.change).sum) ∧
    (∀ i (h : i + 1 < (calculateStarHistoryPoints stargazers).length),
      ((calculateStarHistoryPoints stargazers).get ⟨i, Nat.lt_of_succ_lt h⟩).stars
        ≤ ((calculateStarHistoryPoints stargazers).get ⟨i + 1, h⟩).stars) := by
  have hsum : ∀ i (h : i < (calculateStarHistoryPoints stargazers).length),
      ((calculateStarHistoryPoints stargazers).get ⟨i, h⟩).stars
        = (((calculateStarHistoryPoints stargazers).take (i + 1)).map
            StarHistoryPoint.change).sum := by
    intro i h
    have := starHistoryAux_stars_eq
      ((observedStarTimestamps stargazers).map starDateKey)
      (sortStrings ((observedStarTimestamps stargazers).map starDateKey).dedup)
      0 i (by simpa [calculateStarHistoryPoints] using h)
    simpa [calculateStarHistoryPoints] using this
  refine ⟨hsum, ?_⟩
  intro i h
  rw [hsum i (Nat.lt_of_succ_lt h), hsum (i + 1) h]
  conv_rhs => rw [List.take_succ]
  rw [List.map_append, List.sum_append]
  exact Nat.le_add_right _ _

/-- Witness for C4 on concrete events (two stars on 2024-01-01, one on
2024-01-02, one event without a timestamp): both the cumulative-sum
equality at point 1 and the monotone step from point 0 to point 1 hold. -/
theorem calculateStarHistory_monotone_cumulative_witness :
    (1 < (calculateStarHistoryPoints demoStargazers).length) ∧
    ((calculateStarHistoryPoints demoStargazers).get ⟨1, by decide⟩).stars
      = (((calculateStarHistoryPoints demoStargazers).take 2).map
          StarHistoryPoint.change).sum ∧
    ((calculateStarHistoryPoints demoStargazers).get ⟨0, by decide⟩).stars
      ≤ ((calculateStarHistoryPoints demoStargazers).get ⟨1, by decide⟩).stars :=
  ⟨by decide,
   (calculateStarHistory_monotone_cumulative demoStargazers).1 1 (by decide),
   (calculateStarHistory_monotone_cumulative demoStargazers).2 0 (by decide)⟩

set_option maxRecDepth 4000 in
/-- C5: for every quota state, resource and current time, `isRateLimited`
returns true exactly when the stored snapshot for that resource has
`remaining = 0` and the current time is before the snapshot's reset
instant; in particular, once the current time reaches the reset instant it
returns false even though no fresh snapshot has arrived. -/
theorem isRateLimited_only_when_exhausted_before_reset
    (state : Option RateLimitState) (resource : String) (now : Nat) :
    (isRateLimited state resource now = true ↔
      ∃ st s, state = some st ∧ st resource = some s ∧
        s.remaining = 0 ∧ now < s.reset * 1000) ∧
    (∀ st s, state = some st → st resource = some s →
      s.reset * 1000 ≤ now → isRateLimited state resource now = false) := by
  constructor
  · cases state with
    | none => simp [isRateLimited]
    | some st =>
      cases hres : st resource with
      | none => simp [isRateLimited, hres]
      | some s =>
        by_cases hrem : s.remaining ≤ 0
        · by_cases hnow : now < s.reset * 1000
          · simp only [isRateLimited, hres, if_pos hrem, decide_eq_true_eq]
            constructor
            · intro
              exact ⟨st, s, rfl, hres, by omega, hnow⟩
            · intro
              exact hnow
          · simp only [isRateLimited, hres, if_pos hrem, decide_eq_true_eq]
            constructor
            · intro hc
              exact absurd hc hnow
            · rintro ⟨st2, s2, hst2, hres2, hrem2, hnow2⟩
              injection hst2 with hst2
              subst hst2
              rw [hres] at hres2
              injection hres2 with hres2
              subst hres2
              exact absurd hnow2 hnow
        · simp only [isRateLimited, hres, if_neg hrem]
          constructor
          · intro hc
            exact absurd hc (by simp)
          · rintro ⟨st2, s2, hst2, hres2, hrem2, hnow2⟩
            injection hst2 with hst2
            subst hst2
            rw [hres] at hres2
            injection hres2 with hres2
            subst hres2
            omega
  · intro st s hst hres hpast
    subst hst
    simp only [isRateLimited, hres]
    by_cases hrem : s.remaining ≤ 0
    · rw [if_pos hrem]
      simpa using hpast
    · rw [if_neg hrem]

/-- Witness for C5 on a concrete exhausted snapshot: before the reset
instant the resource is blocked, and at a time past the reset instant it is
open again even though the snapshot still reads `remaining = 0`. -/
theorem isRateLimited_witness :
    isRateLimited (some demoRateState) "core" 500000 = true ∧
    isRateLimited (some demoRateState) "core" 2000000 = false :=
  ⟨(isRateLimited_only_when_exhausted_before_reset
      (some demoRateState) "core" 500000).1.mpr
    ⟨demoRateState,
     { limit := 5000, remaining := 0, used := 5000, reset := 1000,
       resource := "core" },
     rfl, by decide, by decide, by decide⟩,
   (isRateLimited_only_when_exhausted_before_reset
      (some demoRateState) "core" 2000000).2 demoRateState
     { limit := 5000, remaining := 0, used := 5000, reset := 1000,
       resource := "core" }
     rfl (by decide) (by decide)⟩

/-- C6 as stated is false on the code: from the empty (`null`) state, an
observation naming a resource other than `core` also initializes the
required `core` field with the new snapshot.  Concretely, headers naming
`search` change the snapshot of `core` from absent to present. -/
theorem updateFromHeaders_frame_counterexample :
    (∃ s, parseRateLimitHeaders demoHeaders = some s ∧ s.resource = "search") ∧
    "core" ≠ "search" ∧
    lookupSnapshot (updateFromHeaders none demoHeaders) "core" ≠
      lookupSnapshot none "core" := by
  refine ⟨⟨_, rfl, rfl⟩, by decide, by decide⟩

/-- C6 (amended): an observation whose headers parse changes at most the
snapshot of the named resource whenever some state already exists; from the
empty state it changes at most the named resource and `core` (which is
initialized with the new snapshot); and if any of the five header fields is
absent, the observation is ignored and no state changes at all. -/
theorem updateFromHeaders_frame (h : RateLimitHeaders) :
    (∀ (m : RateLimitState) s, parseRateLimitHeaders h = some s →
      ∀ r, r ≠ s.resource →
        lookupSnapshot (updateFromHeaders (some m) h) r =
          lookupSnapshot (some m) r) ∧
    (parseRateLimitHeaders h = none →
      ∀ current, updateFromHeaders current h = current) ∧
    (∀ s, parseRateLimitHeaders h = some s →
      ∀ r, r ≠ s.resource → r ≠ "core" →
        lookupSnapshot (updateFromHeaders none h) r = lookupSnapshot none r) := by
  refine ⟨?_, ?_, ?_⟩
  · intro m s hparse r hr
    simp only [updateFromHeaders, hparse, lookupSnapshot,
      updateRateLimitState, if_neg hr]
  · intro hparse current
    simp only [updateFromHeaders, hparse]
  · intro s hparse r hr hcore
    simp only [updateFromHeaders, hparse, lookupSnapshot,
      updateRateLimitState, if_neg hr, if_neg hcore]

/-- Witness for C6 (amended) on concrete inputs: with an existing state,
headers naming `search` leave the `graphql` snapshot unchanged, and headers
missing their limit field leave the whole state untouched. -/
theorem updateFromHeaders_frame_witness :
    lookupSnapshot (updateFromHeaders (some demoRateState) demoHeaders)
        "graphql" = lookupSnapshot (some demoRateState) "graphql" ∧
    updateFromHeaders (some demoRateState) demoHeadersMissing =
      some demoRateState :=
  ⟨(updateFromHeaders_frame demoHeaders).1 demoRateState _ rfl "graphql"
     (by decide),
   (updateFromHeaders_frame demoHeadersMissing).2.1 rfl (some demoRateState)⟩

/-- C9: with 0 or 1 published (non-draft, with publish date) releases, the
`release_frequency` block of `getReleaseAnalytics` reports 0 for
`days_between_releases`, `releases_per_month` and `releases_per_year`. -/
theorem releaseFrequency_zero_when_at_most_one_published
    (releases : List ReleaseInfo)
    (h : (releases.filter
        (fun r => r.published_at.isSome && !r.draft)).length ≤ 1) :
    releaseFrequency releases = (0, 0, 0) := by
  have hcond : ¬ (1 < (releases.filter
      (fun r => r.published_at.isSome && !r.draft)).length) := by omega
  have hfloor : ⌊(0 : ℚ) * 100 + 1 / 2⌋ = 0 := by
    norm_num [Int.floor_eq_zero_iff, Set.mem_Ico]
  simp only [releaseFrequency, hcond, if_false, lt_irrefl, round2, jsRound,
    hfloor]
  norm_num

/-- Witness for C9 on a concrete release collection with exactly one
qualifying release (plus one unpublished and one draft). -/
theorem releaseFrequency_zero_witness :
    (demoReleases.filter
        (fun r => r.published_at.isSome && !r.draft)).length ≤ 1 ∧
    releaseFrequency demoReleases = (0, 0, 0) :=
  ⟨by decide, releaseFrequency_zero_when_at_most_one_published demoReleases
    (by decide)⟩

theorem notableGroupC_foldl_eq (cs : List InfluencerDeveloper) :
    ∀ init : List NotableStargazer,
      cs.foldl (fun acc user =>
          if acc.any (fun n => n.login = user.login) then acc
          else acc ++ [mkNotable user]) init
        = init ++ notableGroupC init cs := by
  induction cs with
  | nil => intro init; simp [notableGroupC]
  | cons u us ih =>
    intro init
    simp only [List.foldl_cons, notableGroupC]
    by_cases h : init.any (fun n => n.login = u.login)
    · rw [if_pos h, if_pos h, ih]
    · rw [if_neg h, if_neg h, ih]
      simp

theorem notableGroupC_length (cs : List InfluencerDeveloper) :
    ∀ init : List NotableStargazer,
      (notableGroupC init cs).length ≤ cs.length := by
  induction cs with
  | nil => intro init; simp [notableGroupC]
  | cons u us ih =>
    intro init
    simp only [notableGroupC]
    by_cases h : init.any (fun n => n.login = u.login)
    · rw [if_pos h]
      have := ih init
      simp only [List.length_cons]
      omega
    · rw [if_neg h]
      have := ih (init ++ [mkNotable u])
      simp only [List.length_cons]
      omega

/-- C8: for every list of analyzed profiles, `identifyNotableStargazers`
returns the concatenation — in this order, without re-sorting — of
(a) up to 10 profiles with followers ≥ 10,000, (b) up to 5 profiles at a
well-known employer, and (c) up to 5 top-influence-score profiles whose
login was not already selected, the final list capped at 20 entries. -/
theorem identifyNotableStargazers_groups (l : List InfluencerDeveloper) :
    identifyNotableStargazers l =
      (notableGroupA l ++ notableGroupB l ++
        notableGroupC (notableGroupA l ++ notableGroupB l)
          ((sortByScoreDesc l).take 5)).take 20 ∧
    (notableGroupA l).length ≤ 10 ∧
    (notableGroupB l).length ≤ 5 ∧
    (notableGroupC (notableGroupA l ++ notableGroupB l)
        ((sortByScoreDesc l).take 5)).length ≤ 5 ∧
    (identifyNotableStargazers l).length ≤ 20 := by
  have hmain : identifyNotableStargazers l =
      (notableGroupA l ++ notableGroupB l ++
        notableGroupC (notableGroupA l ++ notableGroupB l)
          ((sortByScoreDesc l).take 5)).take 20 := by
    simp only [identifyNotableStargazers, notableGroupA, notableGroupB]
    rw [notableGroupC_foldl_eq]
  refine ⟨hmain, ?_, ?_, ?_, ?_⟩
  · unfold notableGroupA
    rw [List.length_map]
    exact List.length_take_le 10 _
  · unfold notableGroupB
    rw [List.length_map]
    exact List.length_take_le 5 _
  · exact le_trans (notableGroupC_length _ _) (List.length_take_le 5 _)
  · rw [hmain]
    exact List.length_take_le 20 _

/-- C7: a payload whose serialization is already at or under the character
budget is returned unchanged with `wasTruncated = false`. -/
theorem truncateResponse_under_budget (data : Json) (field : String)
    (maxChars : Option Nat)
    (h : (stringify data).length ≤ effectiveMaxChars maxChars) :
    truncateResponse data field maxChars = (data, false) := by
  simp only [truncateResponse]
  rw [if_pos h]

/-- Witness for C7: a small payload under the default budget passes through
untouched. -/
theorem truncateResponse_under_budget_witness :
    (stringify demoPayload).length ≤ effectiveMaxChars none ∧
    truncateResponse demoPayload "items" none = (demoPayload, false) :=
  ⟨by decide, truncateResponse_under_budget demoPayload "items" none (by decide)⟩

/-- C10: a payload whose serialization exceeds the budget but in which the
named array field is absent or not an array is returned unchanged with
`wasTruncated = false` — the output silently exceeds the budget. -/
theorem truncateResponse_missing_array_field (data : Json) (field : String)
    (maxChars : Option Nat)
    (hover : effectiveMaxChars maxChars < (stringify data).length)
    (hfield : getArrayField data field = none) :
    truncateResponse data field maxChars = (data, false) := by
  simp only [truncateResponse]
  rw [if_neg (by omega), hfield]

/-- Witness for C10: with a 3-character budget the payload is over budget,
has no `items` array, and still comes back unchanged and unmarked. -/
theorem truncateResponse_missing_array_field_witness :
    effectiveMaxChars (some 3) < (stringify demoPayload).length ∧
    getArrayField demoPayload "items" = none ∧
    truncateResponse demoPayload "items" (some 3) = (demoPayload, false) :=
  ⟨by decide, rfl,
   truncateResponse_missing_array_field demoPayload "items" (some 3)
     (by decide) rfl⟩

end GithubStats
